import Mathlib

/-!
Verification development for the expression-manager plugin (`src/plugin.py`).

Modelling conventions:
* Python floats are modelled as rationals (`ℚ`); the constants 0.01, 5.0, 0.1
  and 0.5 from the source are written `1/100`, `5`, `1/10` and `1/2`.
* The persisted `Expression` table is modelled as a `List ExprRec`; peewee
  `get()` is `List.find?` (first matching row), `save()` writes back the row
  with the same primary key (`saveById`), `delete_instance()` removes the rows
  with that primary key (`deleteById`), `create()` appends a fresh row.
* External collaborators (the host normalizer `ExpressionSelector`, `json.loads`
  and `json_repair.repair_json`) are passed in as function parameters; the code
  under verification only fixes the control flow around them.
* Python strings are modelled as `List Char` where character-level operations
  (strip, find, slicing) matter.
-/

namespace ExprPlugin

/-- Python `str.strip()` whitespace set, restricted to the ASCII whitespace
characters that matter here. -/
def isPySpace (c : Char) : Bool :=
  c == ' ' || c == '\t' || c == '\n' || c == '\r' || c == '\x0b' || c == '\x0c'

/-- ASCII decimal digit test, the effective content of `str.isdigit` on the
ASCII strings the plugin handles. -/
def isPyDigit (c : Char) : Bool :=
  '0' ≤ c && c ≤ '9'

/-- Python `s.strip()` on a character list. -/
def pyStrip (s : List Char) : List Char :=
  ((s.dropWhile isPySpace).reverse.dropWhile isPySpace).reverse

/-- Python `s.isdigit()` for ASCII content: nonempty and all digits. -/
def isDigitsTok (t : List Char) : Bool :=
  !t.isEmpty && t.all isPyDigit

/-- Python `int(s)` on an ASCII digit string. -/
def digitsToNat (t : List Char) : Nat :=
  t.foldl (fun a c => a * 10 + (c.toNat - 48)) 0

/-- Expression row of the store, mirroring the fields of
`src.common.database.database_model.Expression` that the plugin touches.
The weight column is named `count` in the source. -/
structure ExprRec where
  eid : Nat
  chat_id : String
  situation : String
  style : String
  count : ℚ
  last_active_time : ℚ
  create_date : Option ℚ
deriving DecidableEq

/-- peewee `Expression.get(Expression.id == i)`: first row with primary key `i`. -/
def findById (store : List ExprRec) (i : Nat) : Option ExprRec :=
  store.find? (fun r => r.eid == i)

/-- peewee `Expression.get((Expression.id == i) & (Expression.chat_id == c))`. -/
def findByIdChat (store : List ExprRec) (i : Nat) (c : String) : Option ExprRec :=
  store.find? (fun r => r.eid == i && r.chat_id == c)

/-- peewee `save()`: write the row back over every row with its primary key. -/
def saveById (store : List ExprRec) (r : ExprRec) : List ExprRec :=
  store.map (fun x => if x.eid == r.eid then r else x)

/-- peewee `delete_instance()`: drop the rows with primary key `i`. -/
def deleteById (store : List ExprRec) (i : Nat) : List ExprRec :=
  store.filter (fun r => r.eid != i)

/-- Clamp from the source: `max(0.01, min(5.0, w))`. -/
def clampWeight (w : ℚ) : ℚ :=
  max (1/100) (min 5 w)

/-- Outcome reported by `AddExpressionCommand.execute` after the store step. -/
inductive AddResult where
  | boosted (newWeight : ℚ)
  | created
deriving DecidableEq

/-- Duplicate predicate of the add command: same `(chat_id, situation, style)`
triple, exact string match. -/
def dupPred (chat_id situation style : String) (r : ExprRec) : Bool :=
  r.chat_id == chat_id && r.situation == situation && r.style == style

/-- Store-mutating core of `AddExpressionCommand.execute` (plugin.py:88-135),
after the chat id has been resolved and the weight token parsed to `w`.
If the `(chat_id, situation, style)` triple already exists the first such row
gets `count := min(5.0, count + 0.1)` and a refreshed `last_active_time`
(backfilling `create_date`); otherwise a fresh row is created with
`count := max(0.01, min(5.0, w))`. -/
def addExecute (store : List ExprRec) (chat_id situation style : String)
    (w now : ℚ) (newId : Nat) : List ExprRec × AddResult :=
  let initial_count := max (1/100) (min 5 w)
  match store.find? (dupPred chat_id situation style) with
  | some obj =>
      let newW := min 5 (obj.count + 1/10)
      let obj' : ExprRec :=
        { obj with
          count := newW
          last_active_time := now
          create_date := some (obj.create_date.getD now) }
      (saveById store obj', AddResult.boosted newW)
  | none =>
      (store ++ [{ eid := newId, chat_id := chat_id, situation := situation,
                   style := style, count := initial_count,
                   last_active_time := now, create_date := some now }],
       AddResult.created)

/-- Outcome reported by `ModifyExpressionWeightCommand.execute` after the
chat id has been resolved; the attached rational is the weight echoed in the
user message. -/
inductive ModifyResult where
  | notFound
  | deleted (droppedWeight : ℚ)
  | updated (newWeight : ℚ)
deriving DecidableEq

/-- Store-mutating core of `ModifyExpressionWeightCommand.execute`
(plugin.py:510-540).  The row is looked up by id AND chat id; if missing the
command reports not-found and fails.  Otherwise `new_weight = count + delta`;
when `new_weight <= 0` the row is deleted and the command succeeds with a
deletion message, else the weight is clamped to `[0.01, 5.0]` and saved.
The returned `Bool` is the success flag of the command result. -/
def modifyExecute (store : List ExprRec) (i : Nat) (chat_id : String)
    (delta now : ℚ) : List ExprRec × ModifyResult × Bool :=
  match findByIdChat store i chat_id with
  | none => (store, ModifyResult.notFound, false)
  | some expr =>
      let new_weight := expr.count + delta
      if new_weight ≤ 0 then
        (deleteById store expr.eid, ModifyResult.deleted new_weight, true)
      else
        let nw := max (1/100) (min 5 new_weight)
        (saveById store
          { expr with
            count := nw
            last_active_time := now
            create_date := some (expr.create_date.getD now) },
         ModifyResult.updated nw, true)

/-- Store-mutating core of `DeleteExpressionCommand.execute`
(plugin.py:223-233): lookup by id alone (the source comment says the id is
unique so the chat id is deliberately not part of the query), delete on hit,
not-found failure otherwise.  The `Bool` is the success flag. -/
def deleteExecute (store : List ExprRec) (i : Nat) : List ExprRec × Bool :=
  match findById store i with
  | some expr => (deleteById store expr.eid, true)
  | none => (store, false)

/-- One entry of the learning response `expressions` array, as consumed by
`LearnExpressionCommand._parse_and_update_expressions_v2`.  The source reads
`expr_data.get("id")` (an integer after `str(id).isdigit()` filtering; a
digit-string id normalizes to the same integer) and
`expr_data.get("new_situation")`. -/
structure LearnEntry where
  eid : Option Int
  new_situation : Option String
deriving DecidableEq

/-- Situation-rewrite test of `_parse_and_update_expressions_v2`
(plugin.py:984-990): the proposed situation is used only when the
`new_situation` field is present, truthy (nonempty), and differs from the
stored situation. -/
def situationChange (old : String) (ns : Option String) : Option String :=
  match ns with
  | some s => if s ≠ "" ∧ s ≠ old then some s else none
  | none => none

/-- Processing of a single learning-response entry
(plugin.py:957-1019).  Entries with a missing, zero (falsy), or negative
(`str(id).isdigit()` fails) id are skipped, as are ids absent from the store;
the lookup is by id alone, without a chat filter.  On a hit, a changed
situation is written together with a `+0.5` clamped weight boost, an unchanged
situation leaves the weight alone; in both cases `last_active_time` is
refreshed, the row is saved and the updated counter gains 1. -/
def learnStep (store : List ExprRec) (now : ℚ) (e : LearnEntry) :
    List ExprRec × Nat :=
  match e.eid with
  | none => (store, 0)
  | some n =>
      if 0 < n then
        match findById store n.toNat with
        | none => (store, 0)
        | some expr =>
            match situationChange expr.situation e.new_situation with
            | some ns =>
                let nw := max (1/100) (min 5 (expr.count + 1/2))
                (saveById store
                  { expr with situation := ns, count := nw,
                              last_active_time := now }, 1)
            | none =>
                (saveById store { expr with last_active_time := now }, 1)
      else (store, 0)

/-- Full loop of `_parse_and_update_expressions_v2` over the parsed
`expressions` array, threading the store and accumulating `updated_count`. -/
def learnUpdate (entries : List LearnEntry) (store : List ExprRec) (now : ℚ) :
    List ExprRec × Nat :=
  entries.foldl
    (fun acc e =>
      let step := learnStep acc.1 now e
      (step.1, acc.2 + step.2))
    (store, 0)

/-- Python `s.strip()` with the explicit character set `'[]'`: remove leading
and trailing `[` and `]` characters (and nothing else) from both ends. -/
def stripBrackets (s : List Char) : List Char :=
  (((s.dropWhile fun c => c == '[' || c == ']').reverse.dropWhile
      fun c => c == '[' || c == ']')).reverse

/-- Python `s.split(',')`: split on every comma; the empty string yields one
empty token. -/
def splitOnComma : List Char → List (List Char)
  | [] => [[]]
  | c :: cs =>
      let r := splitOnComma cs
      if c == ',' then [] :: r
      else
        match r with
        | t :: ts => (c :: t) :: ts
        | [] => [[c]]

/-- Token list obtained from a `selected_expressions` string after
`strip('[]')`, `replace(' ', '')` and `split(',')` (plugin.py:1103-1104). -/
def selectedTokens (s : List Char) : List (List Char) :=
  splitOnComma ((stripBrackets s).filter fun c => c != ' ')

/-- Bracketed-id parsing of a `selected_expressions` field
(plugin.py:1099-1108 and 601-611): keep exactly the tokens that satisfy
`part.strip().isdigit()` and convert them with `int`. -/
def parseSelectedExpressions (s : List Char) : List Nat :=
  (selectedTokens s).filterMap fun part =>
    if isDigitsTok (pyStrip part) then some (digitsToNat (pyStrip part))
    else none

/-- Index of the last occurrence of a character satisfying `p`, Python
`str.rfind`. -/
def rfindIdx (p : Char → Bool) (l : List Char) : Option Nat :=
  match l.reverse.findIdx? p with
  | none => none
  | some k => some (l.length - 1 - k)

/-- Brace-span extraction shared by `_parse_analysis_response`
(plugin.py:880-888) and `_parse_and_update_expressions_v2`
(plugin.py:927-939): strip the response, locate the first `{` and the last
`}`, fail unless the span is nonempty (`end_idx > start_idx`), and slice
between them inclusively. -/
def extractJsonSpan (resp : List Char) : Option (List Char) :=
  let cleaned := pyStrip resp
  match cleaned.findIdx? (fun c => c == '{'), rfindIdx (fun c => c == '}') cleaned with
  | some s, some e =>
      if s < e then some ((cleaned.drop s).take (e - s + 1)) else none
  | _, _ => none

/-- Learning-flow parse pipeline (plugin.py:879-899 and 926-952): extract the
brace span, try `repair_json` followed by `json.loads` on the slice, fall back
to `json.loads` on the raw slice, and fail (`none`, surfaced as the
malformed-response error) only when both fail.  `repairParse` models the
composite repair-then-parse step and `directParse` models plain `json.loads`;
both are external collaborators. -/
def analysisExtract (repairParse directParse : List Char → Option α)
    (resp : List Char) : Option α :=
  match extractJsonSpan resp with
  | none => none
  | some jtext =>
      match repairParse jtext with
      | some v => some v
      | none => directParse jtext

/-- Direct-analysis (`/expr msg`) parse pipeline
(plugin.py:1167-1250): `json.loads` is applied to the FULL raw response first
(no strip, no brace slicing); only on a decode error is
`repair_json`-then-parse attempted, again on the full raw response; failure of
both is the malformed-response error. -/
def msgFlowExtract (directParse repairParse : List Char → Option α)
    (resp : List Char) : Option α :=
  match directParse resp with
  | some v => some v
  | none => repairParse resp

/-- Regex `[a-f0-9]{32}` from `_parse_stream_config_to_chat_id`
(plugin.py:41): 32 characters, each a lowercase hex digit. -/
def isHex32Lower (l : List Char) : Bool :=
  l.length == 32 && l.all fun c => isPyDigit c || ('a' ≤ c && c ≤ 'f')

/-- Model of `_parse_stream_config_to_chat_id` (plugin.py:33-46): the empty
string is unresolved; a stripped candidate matching the 32-character lowercase
hex pattern is returned verbatim; anything else is handed to the host
normalizer (`ExpressionSelector`, an external collaborator modelled by the
`normalize` parameter, returning `none` on malformed triples or exceptions). -/
def parseStreamConfigToChatId (normalize : List Char → Option (List Char))
    (s : List Char) : Option (List Char) :=
  if s.isEmpty then none
  else
    let candidate := pyStrip s
    if isHex32Lower candidate then some candidate
    else normalize candidate

/-- Target-chat resolution prelude shared by the add / list / delete / modify
commands (for add, plugin.py:78-86): resolve the supplied token; when that
fails (including when an explicit token was supplied but malformed) fall back
to the issuing chat streams id; when that is also unavailable the command
fails with the no-target-chat message, modelled as `none`. -/
def resolveTargetChat (normalize : List Char → Option (List Char))
    (chatSpec : List Char) (streamId : Option (List Char)) :
    Option (List Char) :=
  match parseStreamConfigToChatId normalize chatSpec with
  | some cid => some cid
  | none => streamId

/-- Greedy maximal run: the pair `(takeWhile p s, dropWhile p s)`, used to
emulate the greedy `\s+`, `\d+` and `[0-9]+` pieces of the command regexes
(safe here because each run is followed by a character class disjoint from
it, so the regex never backtracks into the run). -/
def spanP (p : Char → Bool) (s : List Char) : List Char × List Char :=
  (s.takeWhile p, s.dropWhile p)

/-- ASCII lowercase fold, modelling `re.IGNORECASE` on the literal parts of
the command patterns. -/
def lowerAscii (c : Char) : Char :=
  if 'A' ≤ c && c ≤ 'Z' then Char.ofNat (c.toNat + 32) else c

/-- Case-insensitive literal match: consume `pat` from the front of `s`. -/
def stripLitCI : List Char → List Char → Option (List Char)
  | [], rest => some rest
  | _ :: _, [] => none
  | p :: ps, c :: cs =>
      if lowerAscii c == lowerAscii p then stripLitCI ps cs else none

/-- Leading command token alternation `(?:expr|express|表达)`.  The regex
tries `expr` first; trying `express` first is equivalent because whenever
`express` is a prefix, matching only `expr` leaves `ess...` where the
mandatory `\s+` fails, forcing the regex to backtrack to `express` anyway. -/
def matchHead (s : List Char) : Option (List Char) :=
  match stripLitCI "express".data s with
  | some r => some r
  | none =>
      match stripLitCI "expr".data s with
      | some r => some r
      | none => stripLitCI "表达".data s

/-- Signed-delta token `([+-][0-9]+(?:\.[0-9]+)?)` of the weight-adjustment
pattern (plugin.py:478): a mandatory `+` or `-` sign, a nonempty digit run,
and an optional fraction taken only when a digit follows the dot (when no
digit follows, the regex drops the optional group and leaves the dot in the
remainder, which the tail of the pattern then rejects — same as here). -/
def matchSignedNum (r : List Char) : Option (List Char × List Char) :=
  match r with
  | [] => none
  | sign :: r1 =>
      if sign == '+' || sign == '-' then
        let di := spanP isPyDigit r1
        if di.1.isEmpty then none
        else
          match di.2 with
          | '.' :: r2 =>
              let df := spanP isPyDigit r2
              if df.1.isEmpty then some (sign :: di.1, di.2)
              else some (sign :: di.1 ++ '.' :: df.1, df.2)
          | _ => some (sign :: di.1, di.2)
      else none

/-- Optional trailing chat clause `(?:\s+in\s+(\S+))?$`: either the line ends
here, or whitespace, a case-insensitive `in`, whitespace, and a nonempty
all-non-whitespace token running to the end of the line. -/
def matchOptInClause (r : List Char) : Option (Option (List Char)) :=
  match r with
  | [] => some none
  | _ =>
      let ws := spanP isPySpace r
      if ws.1.isEmpty then none
      else
        match stripLitCI "in".data ws.2 with
        | none => none
        | some r2 =>
            let ws2 := spanP isPySpace r2
            if ws2.1.isEmpty then none
            else if ws2.2.isEmpty then none
            else if ws2.2.all (fun c => !isPySpace c) then some (some ws2.2)
            else none

/-- Anchored matcher for the weight-adjustment command pattern
`^/(?:expr|express|表达)\s+(\d+)\s+([+-][0-9]+(?:\.[0-9]+)?)(?:\s+in\s+(\S+))?$`
(plugin.py:478) under `re.IGNORECASE`, returning the three capture groups
(id token, signed delta token, optional chat token) on a match. -/
def matchModify (line : List Char) :
    Option (List Char × List Char × Option (List Char)) :=
  match line with
  | '/' :: rest =>
      match matchHead rest with
      | none => none
      | some r1 =>
          let ws1 := spanP isPySpace r1
          if ws1.1.isEmpty then none
          else
            let idt := spanP isPyDigit ws1.2
            if idt.1.isEmpty then none
            else
              let ws2 := spanP isPySpace idt.2
              if ws2.1.isEmpty then none
              else
                match matchSignedNum ws2.2 with
                | none => none
                | some (deltaTok, r5) =>
                    match matchOptInClause r5 with
                    | none => none
                    | some inTok => some (idt.1, deltaTok, inTok)
  | _ => none

/-- Parsed shape of a direct-analysis LLM response after `json.loads`: the
`used_expressions` / `unused_expressions` id lists and the `summary` string
read by `AnalyzeMessageExpressionCommand.execute` (plugin.py:1168-1171). -/
structure AnalysisResult where
  used : List Int
  unused : List Int
  summary : String
deriving DecidableEq

/-- Model preference order of the analysis commands (plugin.py:1144-1152):
the `utils` role, else the `chat` role, else the first available handle;
`none` exactly when no model is available. -/
def pickModel (models : List (String × String)) : Option String :=
  match models.find? (fun m => m.1 == "utils") with
  | some m => some m.2
  | none =>
      match models.find? (fun m => m.1 == "chat") with
      | some m => some m.2
      | none => models.head?.map (fun m => m.2)

/-- Message row fields read by the direct-analysis command. -/
structure MsgRec where
  processed_plain_text : String
  selected_expressions : String
deriving DecidableEq

/-- Terminal outcome of `AnalyzeMessageExpressionCommand.execute`; the
`analyzed` case carries the parsed partition and the per-candidate details
read (not written) from the store. -/
inductive AnalyzeOutcome where
  | msgNotFound
  | emptyContent
  | nothingToAnalyze
  | noModels
  | llmFailed (err : String)
  | malformedResponse
  | analyzed (r : AnalysisResult) (details : List (Nat × String × String × ℚ))
deriving DecidableEq

/-- Model of `AnalyzeMessageExpressionCommand.execute` (plugin.py:1068-1257)
from the message lookup onwards, threading the expression store explicitly.
`message` is the `Messages.get` result, `llm` the `generate_with_model`
result, `directParse` and `repairParse` the external JSON collaborators.
Every branch returns the store it was given: the command reads candidate
expressions (with the literal not-found placeholders of plugin.py:1127-1132)
but performs no store write. -/
def analyzeMessageExecute (store : List ExprRec) (message : Option MsgRec)
    (models : List (String × String)) (llm : Bool × String)
    (directParse repairParse : List Char → Option AnalysisResult) :
    AnalyzeOutcome × List ExprRec :=
  match message with
  | none => (AnalyzeOutcome.msgNotFound, store)
  | some mrec =>
      if mrec.processed_plain_text = "" then (AnalyzeOutcome.emptyContent, store)
      else
        let ids := parseSelectedExpressions mrec.selected_expressions.data
        if ids.isEmpty then (AnalyzeOutcome.nothingToAnalyze, store)
        else
          let details := ids.map fun i =>
            match findById store i with
            | some e => (i, e.situation, e.style, e.count)
            | none => (i, "未知", "表达方式不存在", (0 : ℚ))
          match pickModel models with
          | none => (AnalyzeOutcome.noModels, store)
          | some _ =>
              match llm with
              | (false, err) => (AnalyzeOutcome.llmFailed err, store)
              | (true, response) =>
                  match msgFlowExtract directParse repairParse response.data with
                  | some r => (AnalyzeOutcome.analyzed r details, store)
                  | none => (AnalyzeOutcome.malformedResponse, store)

/-- Weight invariant of the data model: every surviving row has
`0.01 ≤ count ≤ 5.0`. -/
abbrev weightInv (store : List ExprRec) : Prop :=
  ∀ r ∈ store, (1/100 : ℚ) ≤ r.count ∧ r.count ≤ 5

theorem clamp_bounds (x : ℚ) :
    (1/100 : ℚ) ≤ max (1/100) (min 5 x) ∧ max (1/100) (min 5 x) ≤ 5 :=
  ⟨le_max_left _ _, max_le (by norm_num) (min_le_left _ _)⟩

theorem boost_bounds {c : ℚ} (h : (1/100 : ℚ) ≤ c) :
    (1/100 : ℚ) ≤ min 5 (c + 1/10) ∧ min 5 (c + 1/10) ≤ 5 :=
  ⟨le_min (by norm_num) (by linarith), min_le_left _ _⟩

theorem mem_saveById {store : List ExprRec} {r x : ExprRec}
    (hx : x ∈ saveById store r) : x = r ∨ x ∈ store := by
  unfold saveById at hx
  rcases List.mem_map.mp hx with ⟨y, hy, hxy⟩
  by_cases hid : (y.eid == r.eid) = true
  · left; rw [← hxy, if_pos hid]
  · right; rw [← hxy, if_neg hid]; exact hy

theorem mem_deleteById {store : List ExprRec} {i : Nat} {x : ExprRec}
    (hx : x ∈ deleteById store i) : x ∈ store ∧ x.eid ≠ i := by
  unfold deleteById at hx
  rcases List.mem_filter.mp hx with ⟨hmem, hne⟩
  exact ⟨hmem, by simpa using hne⟩

theorem length_saveById (store : List ExprRec) (r : ExprRec) :
    (saveById store r).length = store.length :=
  List.length_map _ _

theorem findById_saveById {store : List ExprRec} {y : ExprRec} (r : ExprRec)
    (hy : y ∈ store) (he : y.eid = r.eid) :
    findById (saveById store r) r.eid = some r := by
  induction store with
  | nil => cases hy
  | cons x xs ih =>
      unfold findById saveById
      simp only [List.map_cons]
      by_cases hid : x.eid = r.eid
      · rw [if_pos (by simpa using hid)]
        rw [List.find?_cons_of_pos _ (by simp)]
      · rw [if_neg (by simpa using hid)]
        rw [List.find?_cons_of_neg _ (by simpa using hid)]
        have hyx : y ∈ xs := by
          rcases List.mem_cons.mp hy with h1 | h2
          · exact absurd (h1 ▸ he) hid
          · exact h2
        exact ih hyx

theorem weightInv_saveById {store : List ExprRec} {r : ExprRec}
    (h : weightInv store) (hr : (1/100 : ℚ) ≤ r.count ∧ r.count ≤ 5) :
    weightInv (saveById store r) := by
  intro x hx
  rcases mem_saveById hx with hxr | hmem
  · rw [hxr]; exact hr
  · exact h x hmem

theorem weightInv_deleteById {store : List ExprRec} {i : Nat}
    (h : weightInv store) : weightInv (deleteById store i) := by
  intro x hx
  exact h x (mem_deleteById hx).1

theorem learnStep_inv {store : List ExprRec} (now : ℚ) (e : LearnEntry)
    (h : weightInv store) : weightInv (learnStep store now e).1 := by
  unfold learnStep
  split
  · exact h
  · split
    · split
      · exact h
      · split
        · exact weightInv_saveById h (clamp_bounds _)
        · rename_i expr hfind ns hsc
          exact weightInv_saveById h (h expr (List.mem_of_find?_eq_some hfind))
    · exact h

theorem learnFold_inv (now : ℚ) (entries : List LearnEntry) :
    ∀ acc : List ExprRec × Nat, weightInv acc.1 →
      weightInv ((entries.foldl
        (fun acc e =>
          let step := learnStep acc.1 now e
          (step.1, acc.2 + step.2)) acc)).1 := by
  induction entries with
  | nil => intro acc h; exact h
  | cons e es ih =>
      intro acc h
      exact ih _ (learnStep_inv now e h)

theorem learnUpdate_inv {store : List ExprRec} (entries : List LearnEntry)
    (now : ℚ) (h : weightInv store) :
    weightInv (learnUpdate entries store now).1 :=
  learnFold_inv now entries (store, 0) h

/-- C1: every mutation performed by any command (add, duplicate re-add, weight
adjustment, learning situation rewrite) leaves every surviving record with
`0.01 ≤ count ≤ 5.0`, and a weight-adjustment whose result would be `≤ 0`
deletes the record instead of keeping it. -/
theorem C1_weight_bounds_invariant (store : List ExprRec) (h : weightInv store) :
    (∀ c s st w now newId, weightInv (addExecute store c s st w now newId).1)
  ∧ (∀ i c d now, weightInv (modifyExecute store i c d now).1)
  ∧ (∀ entries now, weightInv (learnUpdate entries store now).1)
  ∧ (∀ i c d now r, findByIdChat store i c = some r → r.count + d ≤ 0 →
        ∀ x ∈ (modifyExecute store i c d now).1, x.eid ≠ r.eid) := by
  refine ⟨?_, ?_, ?_, ?_⟩
  · intro c s st w now newId
    unfold addExecute
    cases hfind : store.find? (dupPred c s st) with
    | some obj =>
        dsimp only
        exact weightInv_saveById h
          (boost_bounds (h obj (List.mem_of_find?_eq_some hfind)).1)
    | none =>
        dsimp only
        intro x hx
        rcases List.mem_append.mp hx with hmem | hnew
        · exact h x hmem
        · rw [List.mem_singleton.mp hnew]
          exact clamp_bounds w
  · intro i c d now
    unfold modifyExecute
    cases hfind : findByIdChat store i c with
    | none => exact h
    | some expr =>
        dsimp only
        by_cases hle : expr.count + d ≤ 0
        · rw [if_pos hle]
          exact weightInv_deleteById h
        · rw [if_neg hle]
          exact weightInv_saveById h (clamp_bounds _)
  · intro entries now
    exact learnUpdate_inv entries now h
  · intro i c d now r hfind hle x hx
    unfold modifyExecute at hx
    rw [hfind] at hx
    dsimp only at hx
    rw [if_pos hle] at hx
    exact (mem_deleteById hx).2

/-- Witness for C1 at a concrete one-record store and the weight-adjustment
mutation. -/
theorem C1_weight_bounds_invariant_witness :
    weightInv [ExprRec.mk 1 "c" "s" "t" 1 0 none]
  ∧ weightInv (modifyExecute [ExprRec.mk 1 "c" "s" "t" 1 0 none] 1 "c" (-3) 2).1 := by
  have h0 : weightInv [ExprRec.mk 1 "c" "s" "t" 1 0 none] := by
    intro r hr
    simp only [List.mem_singleton] at hr
    subst hr
    exact ⟨by norm_num, by norm_num⟩
  exact ⟨h0, (C1_weight_bounds_invariant _ h0).2.1 1 "c" (-3) 2⟩

/-- C2: for a record found by the weight-adjustment command with weight `w`
and a delta `d`, if `w + d ≤ 0` the record is deleted and the command
succeeds with a deletion message, else the weight becomes
`max(0.01, min(5.0, w + d))`. -/
theorem C2_apply_delta (store : List ExprRec) (i : Nat) (c : String)
    (d now : ℚ) (r : ExprRec) (hfind : findByIdChat store i c = some r) :
    (r.count + d ≤ 0 →
        modifyExecute store i c d now =
          (deleteById store r.eid, ModifyResult.deleted (r.count + d), true))
  ∧ (0 < r.count + d →
        modifyExecute store i c d now =
          (saveById store
            { r with count := max (1/100) (min 5 (r.count + d)),
                     last_active_time := now,
                     create_date := some (r.create_date.getD now) },
           ModifyResult.updated (max (1/100) (min 5 (r.count + d))), true)) := by
  constructor
  · intro hle
    unfold modifyExecute
    rw [hfind]
    dsimp only
    rw [if_pos hle]
  · intro hgt
    unfold modifyExecute
    rw [hfind]
    dsimp only
    rw [if_neg (not_le.mpr hgt)]

/-- Witness for C2: the spec scenario `adjust(id=X, delta=-3.0)` on weight
1.0 deletes the record and succeeds. -/
theorem C2_apply_delta_witness :
    ((ExprRec.mk 1 "c" "s" "t" 1 0 none).count + (-3) ≤ 0)
  ∧ modifyExecute [ExprRec.mk 1 "c" "s" "t" 1 0 none] 1 "c" (-3) 2 =
      (deleteById [ExprRec.mk 1 "c" "s" "t" 1 0 none] 1,
       ModifyResult.deleted ((ExprRec.mk 1 "c" "s" "t" 1 0 none).count + (-3)),
       true) := by
  have hfind : findByIdChat [ExprRec.mk 1 "c" "s" "t" 1 0 none] 1 "c" =
      some (ExprRec.mk 1 "c" "s" "t" 1 0 none) := by
    simp [findByIdChat, List.find?]
  have hle : (ExprRec.mk 1 "c" "s" "t" 1 0 none).count + (-3) ≤ 0 := by norm_num
  exact ⟨hle, (C2_apply_delta _ 1 "c" (-3) 2 _ hfind).1 hle⟩

/-- C3: an add command whose `(chat_id, situation, style)` triple already
exists creates no second record; the existing record's weight becomes
`min(5.0, w + 0.1)` (a strict increase as long as the cap is not already
reached), and the supplied initial weight is ignored. -/
theorem C3_duplicate_add (store : List ExprRec) (c s st : String)
    (w w' now : ℚ) (newId newId' : Nat) (obj : ExprRec)
    (hfind : store.find? (dupPred c s st) = some obj) :
    (addExecute store c s st w now newId).1.length = store.length
  ∧ addExecute store c s st w now newId = addExecute store c s st w' now newId'
  ∧ findById (addExecute store c s st w now newId).1 obj.eid =
      some { obj with count := min 5 (obj.count + 1/10),
                      last_active_time := now,
                      create_date := some (obj.create_date.getD now) }
  ∧ min 5 (obj.count + 1/10) ≤ 5
  ∧ (obj.count < 5 → obj.count < min 5 (obj.count + 1/10)) := by
  have hmem : obj ∈ store := List.mem_of_find?_eq_some hfind
  have hred : ∀ (w₀ : ℚ) (id₀ : Nat), addExecute store c s st w₀ now id₀ =
      (saveById store
        { obj with count := min 5 (obj.count + 1/10),
                   last_active_time := now,
                   create_date := some (obj.create_date.getD now) },
       AddResult.boosted (min 5 (obj.count + 1/10))) := by
    intro w₀ id₀
    unfold addExecute
    rw [hfind]
  refine ⟨?_, ?_, ?_, min_le_left _ _, ?_⟩
  · rw [hred w newId]
    exact length_saveById _ _
  · rw [hred w newId, hred w' newId']
  · rw [hred w newId]
    exact findById_saveById _ hmem rfl
  · intro hlt
    exact lt_min hlt (by linarith)

/-- Witness for C3 at a concrete store holding the duplicate triple. -/
theorem C3_duplicate_add_witness :
    List.find? (dupPred "c" "A" "B") [ExprRec.mk 1 "c" "A" "B" 2 0 none] =
      some (ExprRec.mk 1 "c" "A" "B" 2 0 none)
  ∧ (addExecute [ExprRec.mk 1 "c" "A" "B" 2 0 none] "c" "A" "B" 9 3 7).1.length =
      [ExprRec.mk 1 "c" "A" "B" 2 0 none].length
  ∧ addExecute [ExprRec.mk 1 "c" "A" "B" 2 0 none] "c" "A" "B" 9 3 7 =
      addExecute [ExprRec.mk 1 "c" "A" "B" 2 0 none] "c" "A" "B" 1 3 8 := by
  have hfind : List.find? (dupPred "c" "A" "B") [ExprRec.mk 1 "c" "A" "B" 2 0 none] =
      some (ExprRec.mk 1 "c" "A" "B" 2 0 none) := by
    simp [dupPred, List.find?]
  exact ⟨hfind,
    (C3_duplicate_add _ "c" "A" "B" 9 1 3 7 8 _ hfind).1,
    (C3_duplicate_add _ "c" "A" "B" 9 1 3 7 8 _ hfind).2.1⟩

/-- C4 counterexample: a learning entry whose `new_situation` equals the
stored situation receives no weight boost (count stays 1), yet
`updated_count` IS incremented (the run reports 1, not 0) and the record is
saved with a refreshed `last_active_time` — refuting the claim that the
updated count is not incremented for such an entry. -/
theorem C4_counterexample_equal_situation_still_counts :
    (learnUpdate [LearnEntry.mk (some 5) (some "A")]
        [ExprRec.mk 5 "chat" "A" "S" 1 0 none] 7).2 = 1
  ∧ (learnUpdate [LearnEntry.mk (some 5) (some "A")]
        [ExprRec.mk 5 "chat" "A" "S" 1 0 none] 7).1 =
      [ExprRec.mk 5 "chat" "A" "S" 1 7 none] := by
  have hsc : situationChange "A" (some "A") = none := by
    simp [situationChange]
  have hfind : findById [ExprRec.mk 5 "chat" "A" "S" 1 0 none] ((5 : Int)).toNat =
      some (ExprRec.mk 5 "chat" "A" "S" 1 0 none) := by
    simp [findById, List.find?]
  have hstep : learnStep [ExprRec.mk 5 "chat" "A" "S" 1 0 none] 7
      (LearnEntry.mk (some 5) (some "A")) =
      ([ExprRec.mk 5 "chat" "A" "S" 1 7 none], 1) := by
    unfold learnStep
    rw [show (LearnEntry.mk (some (5 : Int)) (some "A")).eid = some 5 from rfl]
    dsimp only
    rw [if_pos (by norm_num), hfind]
    dsimp only
    rw [hsc]
    dsimp only [saveById, List.map]
    norm_num
  have : learnUpdate [LearnEntry.mk (some 5) (some "A")]
      [ExprRec.mk 5 "chat" "A" "S" 1 0 none] 7 =
      ([ExprRec.mk 5 "chat" "A" "S" 1 7 none], 1) := by
    unfold learnUpdate
    simp only [List.foldl, hstep]
  rw [this]
  exact ⟨rfl, rfl⟩

/-- C4 amended: in the learning flow, for every entry naming an existing
positive id, the updated counter gains 1 and `last_active_time` is refreshed
whether or not the situation changes; the `+0.5` clamped weight boost (and
the situation rewrite) happens exactly when the proposed `new_situation` is
present, nonempty, and differs from the stored text, and a proposal equal to
the stored text (or absent) leaves the weight untouched. -/
theorem C4_learning_update_semantics (store : List ExprRec) (now : ℚ)
    (e : LearnEntry) (n : Int) (r : ExprRec)
    (hn : e.eid = some n) (hpos : 0 < n)
    (hfind : findById store n.toNat = some r) :
    (situationChange r.situation e.new_situation = none →
        learnStep store now e =
          (saveById store { r with last_active_time := now }, 1))
  ∧ (∀ ns, situationChange r.situation e.new_situation = some ns →
        learnStep store now e =
          (saveById store
            { r with situation := ns,
                     count := max (1/100) (min 5 (r.count + 1/2)),
                     last_active_time := now }, 1))
  ∧ (e.new_situation = some r.situation →
        situationChange r.situation e.new_situation = none)
  ∧ (e.new_situation = none →
        situationChange r.situation e.new_situation = none) := by
  refine ⟨?_, ?_, ?_, ?_⟩
  · intro hsc
    unfold learnStep
    rw [hn]
    dsimp only
    rw [if_pos hpos, hfind]
    dsimp only
    rw [hsc]
  · intro ns hsc
    unfold learnStep
    rw [hn]
    dsimp only
    rw [if_pos hpos, hfind]
    dsimp only
    rw [hsc]
  · intro hns
    rw [hns]
    simp [situationChange]
  · intro hns
    rw [hns]
    simp [situationChange]

/-- Witness for C4 amended at a concrete entry whose proposal equals the
stored situation. -/
theorem C4_learning_update_semantics_witness :
    (LearnEntry.mk (some 6) (some "A")).eid = some 6
  ∧ findById [ExprRec.mk 6 "c" "A" "S" 1 0 none] ((6 : Int)).toNat =
      some (ExprRec.mk 6 "c" "A" "S" 1 0 none)
  ∧ learnStep [ExprRec.mk 6 "c" "A" "S" 1 0 none] 9
      (LearnEntry.mk (some 6) (some "A")) =
      (saveById [ExprRec.mk 6 "c" "A" "S" 1 0 none]
        (ExprRec.mk 6 "c" "A" "S" 1 9 none), 1) := by
  have hfind : findById [ExprRec.mk 6 "c" "A" "S" 1 0 none] ((6 : Int)).toNat =
      some (ExprRec.mk 6 "c" "A" "S" 1 0 none) := by
    simp [findById, List.find?]
  have hsc : situationChange "A" (some "A") = none := by
    simp [situationChange]
  exact ⟨rfl, hfind,
    (C4_learning_update_semantics _ 9 _ 6 _ rfl (by norm_num) hfind).1 hsc⟩

/-- Prose-wrapped response from the spec example, built character by
character: `Sure! ` + `{"expressions": []}` + ` Thanks`. -/
def proseResponse : List Char :=
  "Sure! ".data ++ ['{', '"'] ++ "expressions".data ++
    ['"', ':', ' ', '[', ']', '}'] ++ " Thanks".data

/-- Inner JSON object `{"expressions": []}` of `proseResponse`. -/
def innerObject : List Char :=
  ['{', '"'] ++ "expressions".data ++ ['"', ':', ' ', '[', ']', '}']

/-- C5 counterexample: the direct-analysis (`/expr msg`) flow does NOT follow
the claimed slice-repair-fallback pipeline for every raw response: it hands
the full, unsliced raw response to the parser first and tries repair (again
on the full response) only afterwards.  Instantiating the external parsers
shows the two flows feed different text to the parser on the prose-wrapped
response: the learning pipeline passes the inner brace slice, the msg flow
passes the whole prose string. -/
theorem C5_counterexample_msg_flow_parses_unsliced :
    ¬ ∀ (dp rp : List Char → Option (List Char)) (resp : List Char),
        msgFlowExtract dp rp resp = analysisExtract rp dp resp := by
  intro hall
  have h := hall (fun s => some s) (fun s => some s) proseResponse
  have h1 : msgFlowExtract (fun s : List Char => some s) (fun s => some s)
      proseResponse = some proseResponse := rfl
  have h2 : analysisExtract (fun s : List Char => some s) (fun s => some s)
      proseResponse = some innerObject := by decide
  rw [h1, h2] at h
  exact absurd (Option.some.inj h) (by decide)

/-- C5 amended: the learning-flow parsers slice from the first `{` to the
last `}` (failing when no nonempty span exists, so a braceless response is a
format error and a prose-wrapped response yields the inner object), try
repair-then-parse on the slice, and fall back to parsing the raw slice;
the direct-analysis flow instead parses the full raw response first and
applies repair to the full response only on a parse failure. -/
theorem C5_extraction_repair_fallback (α : Type) (rp dp : List Char → Option α)
    (resp : List Char) :
    extractJsonSpan proseResponse = some innerObject
  ∧ extractJsonSpan "no json here".data = none
  ∧ (extractJsonSpan resp = none → analysisExtract rp dp resp = none)
  ∧ (∀ j, extractJsonSpan resp = some j →
        analysisExtract rp dp resp =
          (match rp j with
           | some v => some v
           | none => dp j))
  ∧ (∀ v, dp resp = some v → msgFlowExtract dp rp resp = some v)
  ∧ (dp resp = none → msgFlowExtract dp rp resp = rp resp) := by
  refine ⟨by decide, by decide, ?_, ?_, ?_, ?_⟩
  · intro h
    unfold analysisExtract
    rw [h]
  · intro j h
    unfold analysisExtract
    rw [h]
    rfl
  · intro v h
    unfold msgFlowExtract
    rw [h]
  · intro h
    unfold msgFlowExtract
    rw [h]

/-- Witness for C5 amended: a braceless response is rejected by the
learning-flow pipeline before any parse attempt. -/
theorem C5_extraction_repair_fallback_witness :
    extractJsonSpan "no json here".data = none
  ∧ analysisExtract (fun s : List Char => some s) (fun s => some s)
      "no json here".data = none :=
  ⟨by decide,
   (C5_extraction_repair_fallback (List Char) (fun s => some s)
      (fun s => some s) "no json here".data).2.2.1 (by decide)⟩

/-- C6: bracketed-id parsing yields exactly the listed ids on well-formed
input, the empty bracket and fully malformed strings yield `[]`, every
produced id comes from a pure digit token (non-digit tokens are silently
dropped), and a token list with no digit token parses to `[]`; the function
is total, so no input raises an error. -/
theorem C6_bracketed_id_parsing :
    parseSelectedExpressions "[62, 201, 386]".data = [62, 201, 386]
  ∧ parseSelectedExpressions "[]".data = []
  ∧ parseSelectedExpressions "[abc, 12x]".data = []
  ∧ (∀ s n, n ∈ parseSelectedExpressions s →
      ∃ t ∈ selectedTokens s, isDigitsTok (pyStrip t) = true ∧
        digitsToNat (pyStrip t) = n)
  ∧ (∀ s, (∀ t ∈ selectedTokens s, isDigitsTok (pyStrip t) = false) →
      parseSelectedExpressions s = []) := by
  refine ⟨by decide, by decide, by decide, ?_, ?_⟩
  · intro s n hn
    unfold parseSelectedExpressions at hn
    rcases List.mem_filterMap.mp hn with ⟨t, ht, hft⟩
    refine ⟨t, ht, ?_⟩
    by_cases hd : isDigitsTok (pyStrip t) = true
    · rw [if_pos hd] at hft
      exact ⟨hd, Option.some.inj hft⟩
    · rw [if_neg hd] at hft
      cases hft
  · intro s hall
    unfold parseSelectedExpressions
    apply List.filterMap_eq_nil_iff.mpr
    intro t ht
    rw [if_neg (by simp [hall t ht])]

/-- Witness for C6 on the singleton list `[7]`. -/
theorem C6_bracketed_id_parsing_witness :
    (7 ∈ parseSelectedExpressions "[7]".data)
  ∧ ∃ t ∈ selectedTokens "[7]".data,
      isDigitsTok (pyStrip t) = true ∧ digitsToNat (pyStrip t) = 7 :=
  ⟨by decide, C6_bracketed_id_parsing.2.2.2.1 "[7]".data 7 (by decide)⟩

/-- Hex characters of the chat-id pattern are never whitespace. -/
theorem hexChar_not_space {c : Char}
    (h : (isPyDigit c || ('a' ≤ c && c ≤ 'f')) = true) : isPySpace c = false := by
  cases hsp : isPySpace c
  · rfl
  · exfalso
    unfold isPySpace at hsp
    simp only [Bool.or_eq_true, beq_iff_eq] at hsp
    rcases hsp with ((((h1 | h1) | h1) | h1) | h1) | h1 <;> subst h1 <;>
      exact absurd h (by decide)

/-- Python strip is the identity on whitespace-free strings. -/
theorem pyStrip_eq_self {l : List Char} (h : ∀ c ∈ l, isPySpace c = false) :
    pyStrip l = l := by
  unfold pyStrip
  have h1 : l.dropWhile isPySpace = l := by
    cases l with
    | nil => rfl
    | cons c cs =>
        have hc := h c (List.mem_cons_self c cs)
        simp [List.dropWhile_cons, hc]
  rw [h1]
  have h2 : l.reverse.dropWhile isPySpace = l.reverse := by
    cases hrev : l.reverse with
    | nil => rfl
    | cons c cs =>
        have hc : c ∈ l.reverse := by rw [hrev]; exact List.mem_cons_self c cs
        have := h c (List.mem_reverse.mp hc)
        rw [hrev] at *
        simp [List.dropWhile_cons, this]
  rw [h2, List.reverse_reverse]

/-- C7 counterexample: an explicit but malformed token (`zzz`) fails
resolution, and the command nevertheless falls back to the issuing chat
identifier and proceeds — refuting the claim that the fallback happens only
when no explicit token was supplied. -/
theorem C7_counterexample_fallback_despite_explicit_token :
    parseStreamConfigToChatId (fun _ => none) "zzz".data = none
  ∧ resolveTargetChat (fun _ => none) "zzz".data (some "home0".data) =
      some "home0".data :=
  ⟨by decide, by decide⟩

/-- C7 amended: a 32-character lowercase hex token resolves to itself
verbatim (it contains no whitespace, so stripping is the identity); any
other nonempty token is delegated to the host normalizer, unresolved on
failure; whenever resolution fails — explicit token or not — the command
falls back to the issuing chat identifier, and only when that too is
unavailable does it fail with the no-target-chat error. -/
theorem C7_chat_resolution (normalize : List Char → Option (List Char))
    (tok : List Char) (sid : Option (List Char)) :
    (isHex32Lower tok = true → pyStrip tok = tok)
  ∧ (tok ≠ [] → isHex32Lower (pyStrip tok) = true →
        parseStreamConfigToChatId normalize tok = some (pyStrip tok))
  ∧ (tok ≠ [] → isHex32Lower (pyStrip tok) = false →
        parseStreamConfigToChatId normalize tok = normalize (pyStrip tok))
  ∧ (parseStreamConfigToChatId normalize tok = none →
        resolveTargetChat normalize tok sid = sid)
  ∧ (∀ cid, parseStreamConfigToChatId normalize tok = some cid →
        resolveTargetChat normalize tok sid = some cid)
  ∧ parseStreamConfigToChatId normalize [] = none := by
  refine ⟨?_, ?_, ?_, ?_, ?_, rfl⟩
  · intro hhex
    apply pyStrip_eq_self
    intro c hc
    simp only [isHex32Lower, Bool.and_eq_true] at hhex
    exact hexChar_not_space (List.all_eq_true.mp hhex.2 c hc)
  · intro hne hhex
    unfold parseStreamConfigToChatId
    rw [if_neg (by simp [hne]), if_pos hhex]
  · intro hne hhex
    unfold parseStreamConfigToChatId
    rw [if_neg (by simp [hne]), if_neg (by simp [hhex])]
  · intro h
    unfold resolveTargetChat
    rw [h]
  · intro cid h
    unfold resolveTargetChat
    rw [h]

/-- Witness for C7 amended at a concrete canonical hex token. -/
theorem C7_chat_resolution_witness :
    ("0123456789abcdef0123456789abcdef".data ≠ ([] : List Char))
  ∧ isHex32Lower (pyStrip "0123456789abcdef0123456789abcdef".data) = true
  ∧ parseStreamConfigToChatId (fun _ => none)
      "0123456789abcdef0123456789abcdef".data =
      some (pyStrip "0123456789abcdef0123456789abcdef".data) :=
  ⟨by decide, by decide,
   (C7_chat_resolution (fun _ => none) _ none).2.1 (by decide) (by decide)⟩

/-- C8: the direct-analysis (`/expr msg`) flow performs no store writes on
any input and on every control path — message missing, empty content, no
expression ids, no model, model failure, malformed response, or successful
partition — the expression store after the command equals the store before. -/
theorem C8_analysis_flow_readonly (store : List ExprRec)
    (message : Option MsgRec) (models : List (String × String))
    (llm : Bool × String) (dp rp : List Char → Option AnalysisResult) :
    (analyzeMessageExecute store message models llm dp rp).2 = store := by
  unfold analyzeMessageExecute
  rcases message with _ | mrec
  · rfl
  · dsimp only
    split
    · rfl
    · split
      · rfl
      · split
        · rfl
        · rcases llm with ⟨ok, response⟩
          cases ok
          · rfl
          · dsimp only
            split
            · rfl
            · rfl

/-- Sign extraction: every token produced by the signed-delta matcher starts
with an explicit `+` or `-`. -/
theorem matchSignedNum_head {r tok rest : List Char}
    (h : matchSignedNum r = some (tok, rest)) :
    tok.head? = some '+' ∨ tok.head? = some '-' := by
  unfold matchSignedNum at h
  cases r with
  | nil => cases h
  | cons sign r1 =>
      dsimp only at h
      by_cases hs : (sign == '+' || sign == '-') = true
      · have hsign : sign = '+' ∨ sign = '-' := by
          have hs2 := hs
          simp only [Bool.or_eq_true, beq_iff_eq] at hs2
          exact hs2
        rw [if_pos hs] at h
        split at h
        · cases h
        · split at h
          · split at h
            · simp only [Option.some.injEq, Prod.mk.injEq] at h
              rw [← h.1]
              rcases hsign with h1 | h1 <;> subst h1
              · exact Or.inl rfl
              · exact Or.inr rfl
            · simp only [Option.some.injEq, Prod.mk.injEq] at h
              rw [← h.1]
              rcases hsign with h1 | h1 <;> subst h1
              · exact Or.inl rfl
              · exact Or.inr rfl
          · simp only [Option.some.injEq, Prod.mk.injEq] at h
            rw [← h.1]
            rcases hsign with h1 | h1 <;> subst h1
            · exact Or.inl rfl
            · exact Or.inr rfl
      · rw [if_neg hs] at h
        cases h

/-- C9: the weight-adjustment command pattern matches a line only when the
delta token carries an explicit leading `+` or `-` sign; a line whose delta
position holds an unsigned numeric token does not match. -/
theorem C9_delta_requires_sign :
    (∀ line idTok deltaTok inTok,
        matchModify line = some (idTok, deltaTok, inTok) →
        deltaTok.head? = some '+' ∨ deltaTok.head? = some '-')
  ∧ matchModify "/expr 123 +0.5".data = some ("123".data, "+0.5".data, none)
  ∧ matchModify "/expr 123 -1.2".data = some ("123".data, "-1.2".data, none)
  ∧ matchModify "/expr 123 0.5".data = none
  ∧ matchModify "/expr 123 0.5 in qq:123:group".data = none := by
  refine ⟨?_, by decide, by decide, by decide, by decide⟩
  intro line idTok deltaTok inTok h
  unfold matchModify at h
  split at h
  · split at h
    · cases h
    · dsimp only at h
      split at h
      · cases h
      · split at h
        · cases h
        · split at h
          · cases h
          · split at h
            · cases h
            · rename_i dtok r5 hsn
              split at h
              · cases h
              · simp only [Option.some.injEq, Prod.mk.injEq] at h
                rcases h with ⟨h1, h2, h3⟩
                rw [← h2]
                exact matchSignedNum_head hsn
  · cases h

/-- Witness for C9 at a concrete matching line. -/
theorem C9_delta_requires_sign_witness :
    matchModify "/expr 1 +2".data = some ("1".data, "+2".data, none)
  ∧ ("+2".data.head? = some '+' ∨ "+2".data.head? = some '-') :=
  ⟨by decide,
   C9_delta_requires_sign.1 "/expr 1 +2".data "1".data "+2".data none (by decide)⟩

/-- C10: the delete command removes the record matching the id alone —
even when its `chat_id` differs from the resolved target chat — while the
weight-adjustment command requires both id and chat id to agree and reports
not-found (leaving the store untouched) otherwise. -/
theorem C10_delete_by_id_modify_by_id_and_chat (store : List ExprRec)
    (i : Nat) (cid : String) (d now : ℚ) (r : ExprRec)
    (hfind : findById store i = some r)
    (hchat : ∀ x ∈ store, x.eid = i → x.chat_id ≠ cid) :
    deleteExecute store i = (deleteById store i, true)
  ∧ r ∉ deleteById store i
  ∧ modifyExecute store i cid d now = (store, ModifyResult.notFound, false) := by
  have hre : r.eid = i := by simpa using List.find?_some hfind
  refine ⟨?_, ?_, ?_⟩
  · unfold deleteExecute
    rw [hfind]
    dsimp only
    rw [hre]
  · intro hcontra
    exact absurd hre (mem_deleteById hcontra).2
  · unfold modifyExecute
    have hnone : findByIdChat store i cid = none := by
      unfold findByIdChat
      apply List.find?_eq_none.mpr
      intro x hx
      simp only [Bool.and_eq_true, beq_iff_eq, not_and]
      intro hxe
      exact hchat x hx hxe
    rw [hnone]

/-- Witness for C10: a record whose chat differs from the resolved chat is
deleted by the delete command but invisible to the weight-adjustment
command. -/
theorem C10_delete_by_id_modify_by_id_and_chat_witness :
    findById [ExprRec.mk 1 "a" "s" "t" 1 0 none] 1 =
      some (ExprRec.mk 1 "a" "s" "t" 1 0 none)
  ∧ deleteExecute [ExprRec.mk 1 "a" "s" "t" 1 0 none] 1 =
      (deleteById [ExprRec.mk 1 "a" "s" "t" 1 0 none] 1, true)
  ∧ modifyExecute [ExprRec.mk 1 "a" "s" "t" 1 0 none] 1 "b" 1 0 =
      ([ExprRec.mk 1 "a" "s" "t" 1 0 none], ModifyResult.notFound, false) := by
  have hfind : findById [ExprRec.mk 1 "a" "s" "t" 1 0 none] 1 =
      some (ExprRec.mk 1 "a" "s" "t" 1 0 none) := by
    simp [findById, List.find?]
  have hchat : ∀ x ∈ [ExprRec.mk 1 "a" "s" "t" 1 0 none],
      x.eid = 1 → x.chat_id ≠ "b" := by
    intro x hx _
    simp only [List.mem_singleton] at hx
    subst hx
    decide
  exact ⟨hfind,
    (C10_delete_by_id_modify_by_id_and_chat _ 1 "b" 1 0 _ hfind hchat).1,
    (C10_delete_by_id_modify_by_id_and_chat _ 1 "b" 1 0 _ hfind hchat).2.2⟩

end ExprPlugin
